import Mathlib

/-!
Verification of the thread-management and stop-the-world layer of the
Boehm-Demers-Weiser collector's `win32_threads.c`, as a shallow embedding.

Modelling conventions:
* machine addresses and thread ids are `Nat`; the C null pointer is `0`;
  `ADDR_LIMIT` (the C `(ptr_t)GC_WORD_MAX` sentinel) is `2 ^ 64 - 1`;
* the flag bitfield (`IS_SUSPENDED`, `DO_BLOCKING`, `FINISHED`, `DETACHED`)
  is modelled as four booleans;
* results of OS calls (`GetExitCodeThread`, `SuspendThread`,
  `GetThreadContext`, `ResumeThread`, `VirtualQuery`, `CreateEvent`,
  `_beginthreadex`) are inputs of the model: they are either function
  parameters or fields of the record that carries the state of the
  corresponding OS thread.  Such fields are clearly marked below and do not
  correspond to C struct members;
* `ABORT(...)` is modelled by `Except.error` with a dedicated abort code;
* the embedding follows the build configuration exercised by the claims:
  `RETRY_GET_THREAD_CONTEXT` on, `MSWINCE`/`WOW64_THREAD_CONTEXT_WORKAROUND`
  off, `GC_PTHREADS` on for the registration/unregistration logic (this is
  the arm with the `FINISHED` handling the claims talk about), and the
  Win32-event flavour of the parallel-mark machinery
  (`!GC_PTHREADS_PARAMARK`, the arm the marker claims cite).
-/

/-- `MAX_THREADS` (win32_threads.c line 200): capacity of `dll_thread_table`. -/
def MAX_THREADS : Nat := 512

/-- `ADDR_LIMIT` (line 150): `(ptr_t)GC_WORD_MAX`, the "unknown stack minimum"
sentinel, on a 64-bit target. -/
def ADDR_LIMIT : Nat := 2 ^ 64 - 1

/-- `MAX_SUSPEND_THREAD_RETRIES` (line 1136): retry budget of `GC_suspend`. -/
def MAX_SUSPEND_THREAD_RETRIES : Nat := 1000 * 1000

/-- `MAX_MARKERS` (line 1726): hard bound on the marker-thread count. -/
def MAX_MARKERS : Nat := 16

/-- Outcome of one iteration of the suspend-retry loop of `GC_suspend`
(lines 1154-1196), i.e. the OS's answer to that iteration's sequence of
calls: `exited` means `GetExitCodeThread` reported the thread gone;
`suspendFail` means `SuspendThread` returned `(DWORD)-1`; `ctxFail ok`
means `SuspendThread` succeeded but `GetThreadContext` failed, with `ok`
telling whether the compensating `ResumeThread` succeeded; `ok regs sp`
means suspension and context capture both succeeded, yielding the register
snapshot and stack pointer. -/
inductive SuspendAttempt where
  | exited
  | suspendFail
  | ctxFail (resumeOk : Bool)
  | ok (regs : List Nat) (sp : Nat)

/-- Result of the whole suspend-retry loop. -/
inductive SuspendResult where
  | captured (regs : List Nat) (sp : Nat)
  | threadExited
  | abortResume
  | abortRetries
  deriving DecidableEq

/-- The retry loop of `GC_suspend` (lines 1154-1196), with the OS behaviour
for iteration `cnt` given by `env cnt`.  `fuel` is the remaining retry
budget: the C loop aborts when `++retry_cnt >= MAX_SUSPEND_THREAD_RETRIES`,
so iteration `cnt` runs with `fuel = MAX_SUSPEND_THREAD_RETRIES - 1 - cnt`
and a failing iteration with `fuel = 0` aborts. -/
def suspendLoopAux (env : Nat → SuspendAttempt) : Nat → Nat → SuspendResult
  | fuel, cnt =>
    match env cnt with
    | .exited => .threadExited
    | .ok regs sp => .captured regs sp
    | .suspendFail =>
      match fuel with
      | 0 => .abortRetries
      | fuel' + 1 => suspendLoopAux env fuel' (cnt + 1)
    | .ctxFail resumeOk =>
      if resumeOk then
        match fuel with
        | 0 => .abortRetries
        | fuel' + 1 => suspendLoopAux env fuel' (cnt + 1)
      else .abortResume

/-- The suspend-retry loop started at `retry_cnt = 0` (line 1154). -/
def GC_suspend_loop (env : Nat → SuspendAttempt) : SuspendResult :=
  suspendLoopAux env (MAX_SUSPEND_THREAD_RETRIES - 1) 0

/-- One record of the thread registry, `struct GC_Thread_Rep` (declared in
the project's private header; its fields are reconstructed from every use in
win32_threads.c).  Address-valued fields use `0` for NULL.  The last three
fields are not C struct members: they are the modelled OS behaviour of the
underlying thread (`os_attempts` feeds the `GC_suspend` retry loop,
`resume_ok` is the `ResumeThread` outcome in `GC_start_world`, `live_ctx`
is the `GetThreadContext` outcome taken by `GC_push_stack_for` for a
running thread). -/
structure GC_Thread_Rep where
  in_use : Bool := false
  id : Nat := 0
  stack_end : Nat := 0
  last_stack_min : Nat := ADDR_LIMIT
  stack_ptr : Nat := 0
  context_sp : Nat := 0
  context_regs : List Nat := []
  traced_stack_sect : Nat := 0
  suspended : Bool := false
  do_blocking : Bool := false
  finished : Bool := false
  detached : Bool := false
  os_attempts : Nat → SuspendAttempt := fun _ => SuspendAttempt.exited
  resume_ok : Bool := true
  live_ctx : Option (List Nat × Nat) := none

/-- The two registry variants (runtime flag `GC_win32_dll_threads`). -/
inductive Mode where
  | discovery
  | explicitReg
  deriving DecidableEq

/-- Process-abort reasons (`ABORT(...)` call sites of the modelled code). -/
inductive GCAbort where
  | resumeThreadFailedInSuspendLoop
  | suspendThreadLoopFailed
  | resumeThreadFailed
  | collectingFromUnknownThread
  | tooManyThreads
  | registeringNotEnabled
  | allocFailed
  | badStackBase
  | createEventFailed
  deriving DecidableEq

/-- `GC_delete_gc_thread_no_free`, discovery-mode arm (lines 552-558):
clears the record lock-free (stack range first) and releases the slot. -/
def GC_delete_gc_thread_no_free (t : GC_Thread_Rep) : GC_Thread_Rep :=
  { t with stack_end := 0, id := 0,
           suspended := false, do_blocking := false,
           finished := false, detached := false,
           context_sp := 0, in_use := false }

/-- `GC_suspend` (lines 1130-1216), `RETRY_GET_THREAD_CONTEXT` build: run
the retry loop; on context capture mark the record `IS_SUSPENDED` and store
the snapshot; if the thread had already exited, neutralize the record
(discovery mode reclaims the slot, the pthreads explicit mode just clears
`stack_end`); the two `ABORT` sites become errors. -/
def GC_suspend (mode : Mode) (t : GC_Thread_Rep) : Except GCAbort GC_Thread_Rep :=
  match GC_suspend_loop t.os_attempts with
  | .captured regs sp =>
      .ok { t with context_regs := regs, context_sp := sp, suspended := true }
  | .threadExited =>
      .ok (match mode with
           | .discovery => GC_delete_gc_thread_no_free t
           | .explicitReg => { t with stack_end := 0 })
  | .abortResume => .error .resumeThreadFailedInSuspendLoop
  | .abortRetries => .error .suspendThreadLoopFailed

/-- The global state of the subsystem: both registry variants, the
discovery-mode stop/attach flags and the bookkeeping globals.  `hashF`
stands for the header macro `THREAD_TABLE_INDEX`; `alloc_ok` models whether
`GC_INTERNAL_MALLOC` can currently supply a record. -/
structure Globals where
  win32_dll_threads : Bool
  dll_thread_table : List GC_Thread_Rep := []
  max_thread_index : Nat := 0
  threads : List (List GC_Thread_Rep) := []
  hashF : Nat → Nat := fun _ => 0
  attached_thread : Bool := false
  please_stop : Bool := false
  need_to_lock : Bool := false
  in_thread_creation : Bool := false
  first_thread_used : Bool := false
  alloc_ok : Bool := true
  total_stacksize : Nat := 0

/-- `GC_get_max_thread_index` (lines 390-395): compensate for a transient
overshoot of the shared counter. -/
def GC_get_max_thread_index (g : Globals) : Nat :=
  if g.max_thread_index ≥ MAX_THREADS then MAX_THREADS - 1 else g.max_thread_index

/-- `required_markers_cnt` update by `GC_set_markers_count` (lines
2355-2359): the new stored value (the function returns no status). -/
def GC_set_markers_count (markers : Nat) : Nat :=
  if markers < MAX_MARKERS then markers else MAX_MARKERS

/-- `GC_lookup_thread` (lines 401-427): discovery mode scans the first
`my_max + 1` slots for an in-use record with the requested id; explicit
mode walks the hash chain of bucket `THREAD_TABLE_INDEX(id)`. -/
def GC_lookup_thread (g : Globals) (id : Nat) : Option GC_Thread_Rep :=
  if g.win32_dll_threads then
    (g.dll_thread_table.take (GC_get_max_thread_index g + 1)).find?
      (fun t => t.in_use && t.id == id)
  else
    (g.threads.getD (g.hashF id) []).find? (fun t => t.id == id)

/-- `GC_register_my_thread_inner` (lines 278-384).  Discovery mode: claim
the first free slot by test-and-set (`ABORT("Too many threads")` when the
table is exhausted), push the new maximum index with the overshoot clamp,
initialize `last_stack_min`/`stack_end`/`id`, and set the sticky
`GC_attached_thread` signal when `GC_please_stop` is on.  Explicit mode:
`GC_new_thread` links a fresh record at the head of the hash chain (the
statically allocated `first_thread` serves the first registration;
afterwards an allocation failure aborts, line 343-344). -/
def GC_register_my_thread_inner (g : Globals) (id sb : Nat) :
    Except GCAbort Globals :=
  if sb = 0 then .error .badStackBase
  else if g.win32_dll_threads then
    match g.dll_thread_table.findIdx? (fun t => !t.in_use) with
    | none => .error .tooManyThreads
    | some i =>
      let t0 := g.dll_thread_table.getD i {}
      let t1 := { t0 with in_use := true, last_stack_min := ADDR_LIMIT,
                          stack_end := sb, id := id }
      let newMax0 := max g.max_thread_index i
      let newMax := if newMax0 ≥ MAX_THREADS then MAX_THREADS - 1 else newMax0
      .ok { g with dll_thread_table := g.dll_thread_table.set i t1,
                   max_thread_index := newMax,
                   attached_thread := g.attached_thread || g.please_stop }
  else
    if !g.first_thread_used || g.alloc_ok then
      let hv := g.hashF id
      let t1 : GC_Thread_Rep := { last_stack_min := ADDR_LIMIT,
                                  stack_end := sb, id := id }
      .ok { g with threads := g.threads.set hv (t1 :: g.threads.getD hv []),
                   first_thread_used := true }
    else .error .allocFailed

/-- Replace the first list entry satisfying `p` by its image under `f`. -/
def modifyFirst (p : α → Bool) (f : α → α) : List α → List α
  | [] => []
  | a :: l => if p a then f a :: l else a :: modifyFirst p f l

/-- Update the registry record of thread `id` in place (the record found by
the same search as `GC_lookup_thread`). -/
def GC_modify_thread (g : Globals) (id : Nat) (f : GC_Thread_Rep → GC_Thread_Rep) :
    Globals :=
  if g.win32_dll_threads then
    { g with dll_thread_table :=
        modifyFirst (fun t => t.in_use && t.id == id) f g.dll_thread_table }
  else
    let hv := g.hashF id
    let chain := modifyFirst (fun t => t.id == id) f (g.threads.getD hv [])
    { g with threads := g.threads.set hv chain }

/-- Result codes of `GC_register_my_thread`: `GC_SUCCESS`/`GC_DUPLICATE`. -/
inductive RegResult where
  | success
  | duplicate
  deriving DecidableEq

/-- `GC_register_my_thread` (lines 637-678), `GC_PTHREADS` arm: abort when
explicit registering was never enabled; on a fresh registration run the
inner registration and mark the record `DETACHED`; a found record that is
`FINISHED` is revived (stack base re-recorded, flag cleared); otherwise the
call reports `GC_DUPLICATE` and changes nothing. -/
def GC_register_my_thread (g : Globals) (self_id sb : Nat) :
    Except GCAbort (RegResult × Globals) :=
  if g.need_to_lock = false then .error .registeringNotEnabled
  else
    match GC_lookup_thread g self_id with
    | none =>
      match GC_register_my_thread_inner g self_id sb with
      | .error e => .error e
      | .ok g' =>
          .ok (.success,
               if g'.win32_dll_threads then g'
               else GC_modify_thread g' self_id (fun t => { t with detached := true }))
    | some me =>
      if me.finished then
        .ok (.success,
             GC_modify_thread g self_id
               (fun t => { t with stack_end := sb, finished := false }))
      else .ok (.duplicate, g)

/-- `GC_started_thread_while_stopped` (lines 174-192): in discovery mode
report and atomically clear the sticky `GC_attached_thread` signal. -/
def GC_started_thread_while_stopped (g : Globals) : Bool × Globals :=
  if g.win32_dll_threads then
    if g.attached_thread then (true, { g with attached_thread := false })
    else (false, g)
  else (false, g)

/-- Suspension condition of the discovery-mode `GC_stop_world` loop
(line 1266): stack range published, not in a blocking bracket, not the
caller. -/
def stopEligibleDll (self_id : Nat) (p : GC_Thread_Rep) : Bool :=
  p.stack_end != 0 && !p.do_blocking && p.id != self_id

/-- Suspension condition of the explicit-mode `GC_stop_world` loop
(lines 1279-1280): additionally skips `FINISHED` records. -/
def stopEligibleHash (self_id : Nat) (p : GC_Thread_Rep) : Bool :=
  p.stack_end != 0 && p.id != self_id && !p.finished && !p.do_blocking

/-- The discovery-mode suspension loop of `GC_stop_world` (lines
1263-1270): visit the first `bound = my_max + 1` slots, suspending the
eligible ones; later slots are not inspected. -/
def suspendDllTable (self_id : Nat) : Nat → List GC_Thread_Rep →
    Except GCAbort (List GC_Thread_Rep)
  | _, [] => .ok []
  | 0, rest => .ok rest
  | bound + 1, p :: rest =>
    match (if stopEligibleDll self_id p then GC_suspend .discovery p else .ok p) with
    | .error e => .error e
    | .ok p' =>
      match suspendDllTable self_id bound rest with
      | .error e => .error e
      | .ok rest' => .ok (p' :: rest')

/-- One hash chain of the explicit-mode suspension loop (lines 1277-1282). -/
def suspendChain (self_id : Nat) : List GC_Thread_Rep →
    Except GCAbort (List GC_Thread_Rep)
  | [] => .ok []
  | p :: rest =>
    match (if stopEligibleHash self_id p then GC_suspend .explicitReg p else .ok p) with
    | .error e => .error e
    | .ok p' =>
      match suspendChain self_id rest with
      | .error e => .error e
      | .ok rest' => .ok (p' :: rest')

/-- All hash chains of the explicit-mode suspension loop. -/
def suspendBuckets (self_id : Nat) : List (List GC_Thread_Rep) →
    Except GCAbort (List (List GC_Thread_Rep))
  | [] => .ok []
  | c :: cs =>
    match suspendChain self_id c with
    | .error e => .error e
    | .ok c' =>
      match suspendBuckets self_id cs with
      | .error e => .error e
      | .ok cs' => .ok (c' :: cs')

/-- `GC_stop_world` (lines 1224-1294): raise `GC_please_stop`; in discovery
mode clear the sticky attach signal and suspend the eligible slots up to
the compensated maximum index; in explicit mode suspend the eligible
records of every hash chain.  (Lock handling and the write-section guard
have no observable effect on the modelled state.) -/
def GC_stop_world (self_id : Nat) (g : Globals) : Except GCAbort Globals :=
  let g1 := { g with please_stop := true }
  if g1.win32_dll_threads then
    let g2 := { g1 with attached_thread := false }
    match suspendDllTable self_id (GC_get_max_thread_index g2 + 1) g2.dll_thread_table with
    | .ok tbl => .ok { g2 with dll_thread_table := tbl }
    | .error e => .error e
  else
    match suspendBuckets self_id g1.threads with
    | .ok ths => .ok { g1 with threads := ths }
    | .error e => .error e

/-- Resumption of one record by `GC_start_world` (lines 1310-1320 and
1329-1339): a suspended record gets exactly one `ResumeThread` call (whose
failure aborts) and its flag cleared; any other record is left alone.  The
returned number counts the `ResumeThread` calls issued for this record. -/
def resumeRecord (p : GC_Thread_Rep) : Except GCAbort (GC_Thread_Rep × Nat) :=
  if p.suspended then
    if p.resume_ok then .ok ({ p with suspended := false }, 1)
    else .error .resumeThreadFailed
  else .ok (p, 0)

/-- Discovery-mode resume loop of `GC_start_world` (lines 1304-1322):
slots up to `bound = my_max + 1`; later slots are not inspected (zero
resume calls). -/
def startDllTable : Nat → List GC_Thread_Rep →
    Except GCAbort (List GC_Thread_Rep × List Nat)
  | _, [] => .ok ([], [])
  | 0, rest => .ok (rest, List.replicate rest.length 0)
  | bound + 1, p :: rest =>
    match resumeRecord p with
    | .error e => .error e
    | .ok pc =>
      match startDllTable bound rest with
      | .error e => .error e
      | .ok rc => .ok (pc.1 :: rc.1, pc.2 :: rc.2)

/-- One hash chain of the explicit-mode resume loop (lines 1327-1347). -/
def startChain : List GC_Thread_Rep →
    Except GCAbort (List GC_Thread_Rep × List Nat)
  | [] => .ok ([], [])
  | p :: rest =>
    match resumeRecord p with
    | .error e => .error e
    | .ok pc =>
      match startChain rest with
      | .error e => .error e
      | .ok rc => .ok (pc.1 :: rc.1, pc.2 :: rc.2)

/-- All hash chains of the explicit-mode resume loop; the per-record resume
counts are returned chain after chain. -/
def startBuckets : List (List GC_Thread_Rep) →
    Except GCAbort (List (List GC_Thread_Rep) × List Nat)
  | [] => .ok ([], [])
  | c :: cs =>
    match startChain c with
    | .error e => .error e
    | .ok cc =>
      match startBuckets cs with
      | .error e => .error e
      | .ok rc => .ok (cc.1 :: rc.1, cc.2 ++ rc.2)

/-- `GC_start_world` (lines 1296-1352): resume every suspended record of
the active registry variant and finally drop `GC_please_stop`.  Also
returns the list of per-record resume-call counts, in registry order. -/
def GC_start_world (g : Globals) : Except GCAbort (Globals × List Nat) :=
  if g.win32_dll_threads then
    match startDllTable (GC_get_max_thread_index g + 1) g.dll_thread_table with
    | .ok (tbl, cs) => .ok ({ g with dll_thread_table := tbl, please_stop := false }, cs)
    | .error e => .error e
  else
    match startBuckets g.threads with
    | .ok (ths, cs) => .ok ({ g with threads := ths, please_stop := false }, cs)
    | .error e => .error e

/-- The records the stop/resume (and stack-pushing) loops actually visit:
in discovery mode the slots up to the compensated maximum index, in
explicit mode every chained record. -/
def scannedRecords (g : Globals) : List GC_Thread_Rep :=
  if g.win32_dll_threads then
    g.dll_thread_table.take (GC_get_max_thread_index g + 1)
  else g.threads.flatten

/-- Every record held by the active registry variant. -/
def allRecords (g : Globals) : List GC_Thread_Rep :=
  if g.win32_dll_threads then g.dll_thread_table else g.threads.flatten

/-- Mode-dependent suspension condition of `GC_stop_world`. -/
def stopEligible (g : Globals) (self_id : Nat) (p : GC_Thread_Rep) : Bool :=
  if g.win32_dll_threads then stopEligibleDll self_id p else stopEligibleHash self_id p

/-- The OS memory map as seen through `VirtualQuery`: `base s` is the
`BaseAddress` of the region containing `s`, `stack_page s` tells whether
that region has `PAGE_READWRITE` protection without `PAGE_GUARD`. -/
structure OSMem where
  base : Nat → Nat
  stack_page : Nat → Bool

/-- `may_be_in_stack` (lines 1396-1405): protections of the page at `s`
look like stack pages. -/
def may_be_in_stack (os : OSMem) (s : Nat) : Bool := os.stack_page s

/-- `GC_get_stack_min` (lines 1376-1392): walk `VirtualQuery` regions
downwards from `s` until a non-stack page is hit; the last region base is
the stack minimum.  `fuel` bounds the walk (the C loop is bounded by the
finite region map); when it runs out the current base is returned. -/
def GC_get_stack_min (os : OSMem) : Nat → Nat → Nat
  | 0, s => os.base s
  | fuel + 1, s =>
    let bottom := os.base s
    if os.stack_page (bottom - 1) then GC_get_stack_min os fuel (bottom - 1)
    else bottom

/-- The stack pointer `GC_push_stack_for` works with (lines 1479-1521):
the caller's own approximate sp, a blocked thread's frozen `stack_ptr`, a
suspended thread's cached `context_sp`, else a fresh `GetThreadContext`
(`live_ctx`); when that fails and no stale `context_sp` exists the thread
is skipped (`none`). -/
def observedSp (approx_sp self_id : Nat) (t : GC_Thread_Rep) : Option Nat :=
  if t.id = self_id then some approx_sp
  else if t.do_blocking then some t.stack_ptr
  else if t.suspended then some t.context_sp
  else
    match t.live_ctx with
    | some c => some c.2
    | none => if t.context_sp = 0 then none else some t.context_sp

/-- Result of `GC_push_stack_for`: the overall pushed range (`none` when
the thread was skipped), whether the over-inclusive fallback push was
taken, whether the cached-window fast path supplied the stack minimum,
the number of `VirtualQuery`-probing helper invocations
(`GC_get_stack_min` / `may_be_in_stack` calls), the updated record, the
returned byte count `stack_end - sp` and whether the caller was
recognized. -/
structure PushStackResult where
  pushed : Option (Nat × Nat) := none
  fallback : Bool := false
  cachedPath : Bool := false
  probes : Nat := 0
  thread : GC_Thread_Rep
  ret : Nat := 0
  found_me : Bool := false

/-- `GC_push_stack_for` (lines 1472-1667), build without `MSWINCE` and
without the WoW64 workaround.  Stack-minimum refinement (lines 1589-1635):
a fresh record probes from the traced-section address or the stack end; a
cached record first clamps the cache to a nested traced section, reuses
`sp` when it falls inside the cached window, and otherwise re-probes from
the cached minimum (or from `sp` for the caller itself), falling back to a
full probe from `stack_end` when the cached page no longer looks like
stack.  Push decision (lines 1644-1665): push `[sp, stack_end)` when `sp`
lies in the computed range, else push the whole `[stack_min, stack_end)`.
The returned byte count `stack_end - sp` (line 1666) is exact (no wrap)
whenever `sp ≤ stack_end`, which holds in every scenario the claims
quantify over. -/
def GC_push_stack_for (os : OSMem) (fuel : Nat) (approx_sp self_id : Nat)
    (t : GC_Thread_Rep) : PushStackResult :=
  let is_self := t.id = self_id
  match observedSp approx_sp self_id t with
  | none => { thread := t }
  | some sp =>
    let tss := t.traced_stack_sect
    -- (computed stack_min, updated last_stack_min, cached fast path, probe count);
    -- the record's `stack_end` is never written, so the branches only need to
    -- produce the new cache value.
    let smt : Nat × Nat × Bool × Nat :=
      if t.last_stack_min = ADDR_LIMIT then
        let m := GC_get_stack_min os fuel (if tss ≠ 0 then tss else t.stack_end)
        (m, m, false, 1)
      else
        let lsm := if tss ≠ 0 ∧ tss < t.last_stack_min then tss
                   else t.last_stack_min
        if sp < t.stack_end ∧ lsm ≤ sp then (sp, lsm, true, 0)
        else
          let probeAddr := if is_self ∧ sp < lsm then sp else lsm
          if may_be_in_stack os probeAddr then
            let m0 := os.base probeAddr
            if sp < m0 ∨ t.stack_end ≤ sp then
              let m := GC_get_stack_min os fuel lsm
              (m, m, false, 2)
            else (m0, m0, false, 1)
          else
            let m := GC_get_stack_min os fuel t.stack_end
            (m, m, false, 2)
    let stack_min := smt.1
    let t' := { t with last_stack_min := smt.2.1 }
    if stack_min ≤ sp ∧ sp < t.stack_end then
      { pushed := some (sp, t.stack_end), cachedPath := smt.2.2.1,
        probes := smt.2.2.2, thread := t', ret := t.stack_end - sp,
        found_me := is_self }
    else
      { pushed := some (stack_min, t.stack_end), fallback := true,
        cachedPath := smt.2.2.1, probes := smt.2.2.2, thread := t',
        ret := t.stack_end - sp, found_me := is_self }

/-- Scan condition of the discovery-mode `GC_push_all_stacks` loop
(line 1690). -/
def pushEligibleDll (p : GC_Thread_Rep) : Bool := p.in_use && p.stack_end != 0

/-- Scan condition of the explicit-mode `GC_push_all_stacks` loop
(line 1705). -/
def pushEligibleHash (p : GC_Thread_Rep) : Bool := !p.finished && p.stack_end != 0

/-- Accumulated outcome of the `GC_push_all_stacks` loops: updated records,
total byte count, number of scanned threads, and whether the caller's
record was seen. -/
structure PushAllAcc where
  recs : List GC_Thread_Rep := []
  total : Nat := 0
  nthreads : Nat := 0
  found_me : Bool := false

/-- Discovery-mode loop of `GC_push_all_stacks` (lines 1683-1696): slots up
to `bound = my_max + 1`. -/
def pushDllTable (os : OSMem) (fuel approx_sp self_id : Nat) :
    Nat → List GC_Thread_Rep → PushAllAcc
  | _, [] => {}
  | 0, rest => { recs := rest }
  | bound + 1, p :: rest =>
    let r := pushDllTable os fuel approx_sp self_id bound rest
    if pushEligibleDll p then
      let s := GC_push_stack_for os fuel approx_sp self_id p
      { recs := s.thread :: r.recs, total := s.ret + r.total,
        nthreads := r.nthreads + 1, found_me := s.found_me || r.found_me }
    else { r with recs := p :: r.recs }

/-- One hash chain of the explicit-mode `GC_push_all_stacks` loop
(lines 1700-1711). -/
def pushChain (os : OSMem) (fuel approx_sp self_id : Nat) :
    List GC_Thread_Rep → PushAllAcc
  | [] => {}
  | p :: rest =>
    let r := pushChain os fuel approx_sp self_id rest
    if pushEligibleHash p then
      let s := GC_push_stack_for os fuel approx_sp self_id p
      { recs := s.thread :: r.recs, total := s.ret + r.total,
        nthreads := r.nthreads + 1, found_me := s.found_me || r.found_me }
    else { r with recs := p :: r.recs }

/-- Accumulated outcome of the explicit-mode `GC_push_all_stacks` loop over
all buckets. -/
structure PushBucketsAcc where
  buckets : List (List GC_Thread_Rep) := []
  total : Nat := 0
  nthreads : Nat := 0
  found_me : Bool := false

/-- All hash chains of the explicit-mode `GC_push_all_stacks` loop. -/
def pushBuckets (os : OSMem) (fuel approx_sp self_id : Nat) :
    List (List GC_Thread_Rep) → PushBucketsAcc
  | [] => {}
  | c :: cs =>
    let rc := pushChain os fuel approx_sp self_id c
    let rcs := pushBuckets os fuel approx_sp self_id cs
    { buckets := rc.recs :: rcs.buckets, total := rc.total + rcs.total,
      nthreads := rc.nthreads + rcs.nthreads,
      found_me := rc.found_me || rcs.found_me }

/-- `GC_push_all_stacks` (lines 1671-1721): scan every eligible record of
the active registry variant, accumulate the scanned byte total into
`GC_total_stacksize`, and `ABORT("Collecting from unknown thread")` when
the caller's record was not among those scanned and the call did not come
from thread-creation bootstrap.  Returns the updated globals, the number of
scanned threads and `found_me`. -/
def GC_push_all_stacks (os : OSMem) (fuel approx_sp self_id : Nat)
    (g : Globals) : Except GCAbort (Globals × Nat × Bool) :=
  if g.win32_dll_threads then
    let r := pushDllTable os fuel approx_sp self_id
                (GC_get_max_thread_index g + 1) g.dll_thread_table
    if !r.found_me && !g.in_thread_creation then
      .error .collectingFromUnknownThread
    else
      .ok ({ g with dll_thread_table := r.recs, total_stacksize := r.total },
           r.nthreads, r.found_me)
  else
    let r := pushBuckets os fuel approx_sp self_id g.threads
    if !r.found_me && !g.in_thread_creation then
      .error .collectingFromUnknownThread
    else
      .ok ({ g with threads := r.buckets, total_stacksize := r.total },
           r.nthreads, r.found_me)

/-- Parallel-mark pool state (Win32-event build): the configured and
actually-started helper counts (`available_markers_m1`, `GC_markers_m1`,
both C `int`/`signed_word`), the `GC_parallel` flag, the open/closed state
of the per-helper events `GC_marker_cv[]` and of the three shared signal
objects, and the per-helper cached stack minima. -/
structure MarkGlobals where
  available_markers_m1 : Int := 0
  markers_m1 : Int := 0
  parallel : Bool := false
  marker_cv : List Bool := []
  marker_last_stack_min : List Nat := []
  mark_cv_open : Bool := true
  builder_cv_open : Bool := true
  mark_mutex_event_open : Bool := true

/-- The helper-spawn loop of `GC_start_mark_threads_inner` (lines
2169-2206): try `_beginthreadex` for `rem` more helpers starting at index
`i` and return the index reached when the first spawn fails (or the bound
when all succeed); the loop does not try further helpers after a failure. -/
def firstSpawnFailure (spawnOk : Nat → Bool) : Nat → Nat → Nat
  | 0, i => i
  | rem + 1, i => if spawnOk i then firstSpawnFailure spawnOk rem (i + 1) else i

/-- `GC_start_mark_threads_inner` (lines 2148-2220, Win32-event build):
skip when parallel marking is already on or no helpers are configured;
create the per-helper events (a `CreateEvent` failure aborts); set
`GC_markers_m1` to the configured count and spawn helpers via
`_beginthreadex` until the first failure (index given by `spawnOk`); shrink
`GC_markers_m1` back to the number started, closing the events of the
helpers that never started; when zero started, also close the pool's three
shared signal objects. -/
def GC_start_mark_threads_inner (eventOk spawnOk : Nat → Bool)
    (m : MarkGlobals) : Except GCAbort MarkGlobals :=
  if m.available_markers_m1 ≤ 0 || m.parallel then .ok m
  else
    let n := m.available_markers_m1.toNat
    if !((List.range n).all eventOk) then .error .createEventFailed
    else
      let started := firstSpawnFailure spawnOk n 0
      let attempted := min (started + 1) n
      .ok { m with
            markers_m1 := (started : Int),
            marker_cv := (List.range n).map (fun i => decide (i < started)),
            marker_last_stack_min := (List.range n).map
              (fun i => if i < attempted then ADDR_LIMIT
                        else m.marker_last_stack_min.getD i 0),
            mark_cv_open := if started = 0 then false else m.mark_cv_open,
            builder_cv_open := if started = 0 then false else m.builder_cv_open,
            mark_mutex_event_open :=
              if started = 0 then false else m.mark_mutex_event_open }

/-- Modelled from the spec: the assignment that turns `GC_parallel` on
lives outside this file (the mark-phase module); per the spec's failure
policy ("if zero helpers start, parallel marking is disabled for the
process lifetime"), that external code enables `GC_parallel` only when at
least one marker thread has been started, i.e. when `GC_markers_m1 > 0`. -/
def GC_enable_parallel (m : MarkGlobals) : MarkGlobals :=
  if m.markers_m1 > 0 then { m with parallel := true } else m

/-- Serialized events for the sticky attach-during-stop protocol: a thread
registration (`GC_register_my_thread_inner`), a stop-the-world, a
resume-the-world, and a `GC_started_thread_while_stopped` query. -/
inductive GEv where
  | reg (id sb : Nat)
  | stopW (self_id : Nat)
  | startW
  | chk

/-- One event step; `chk` produces the query's boolean answer. -/
def stepEv (g : Globals) : GEv → Except GCAbort (Globals × Option Bool)
  | .reg id sb =>
    match GC_register_my_thread_inner g id sb with
    | .ok g' => .ok (g', none)
    | .error e => .error e
  | .stopW s =>
    match GC_stop_world s g with
    | .ok g' => .ok (g', none)
    | .error e => .error e
  | .startW =>
    match GC_start_world g with
    | .ok gc => .ok (gc.1, none)
    | .error e => .error e
  | .chk =>
    let rc := GC_started_thread_while_stopped g
    .ok (rc.2, some rc.1)

/-- Run a serialized event trace, collecting the answers of the `chk`
queries in order. -/
def runEvents (g : Globals) : List GEv → Except GCAbort (Globals × List Bool)
  | [] => .ok (g, [])
  | e :: es =>
    match stepEv g e with
    | .error err => .error err
    | .ok go =>
      match runEvents go.1 es with
      | .error err => .error err
      | .ok gr =>
        .ok (gr.1, match go.2 with | some b => b :: gr.2 | none => gr.2)

/-- Modelled from the spec's words for the sticky signal (spec section 4.2
"Race handling"): an attachment while a stop is in progress sets the sticky
signal, the start of a stop-the-world resets it, and a query reports it and
clears it; arguments are the current signal and stop-in-progress bits. -/
def stickySpecRun : Bool → Bool → List GEv → List Bool
  | _, _, [] => []
  | st, ps, .reg _ _ :: es => stickySpecRun (st || ps) ps es
  | _, _, .stopW _ :: es => stickySpecRun false true es
  | st, _, .startW :: es => stickySpecRun st false es
  | st, ps, .chk :: es => st :: stickySpecRun false ps es

/-- Explicit-mode registry with one running registered thread (id 7),
registration enabled. -/
def regDupG : Globals :=
  { win32_dll_threads := false, need_to_lock := true,
    threads := [[{ id := 7, stack_end := 100 }]] }

/-- OS map for the concrete scenarios: every address lies in a region
based at 400 and no page carries stack-like protections. -/
def osFlat : OSMem := { base := fun _ => 400, stack_page := fun _ => false }

/-- A blocked thread with a cached stack minimum 500, stack end 1000 and
frozen stack pointer 700. -/
def blockedRec : GC_Thread_Rep :=
  { id := 3, stack_end := 1000, last_stack_min := 500, stack_ptr := 700,
    do_blocking := true }

/-- A blocked thread with an unset stack-minimum cache. -/
def freshBlockedRec : GC_Thread_Rep :=
  { id := 3, stack_end := 1000, stack_ptr := 700, do_blocking := true }

/-- Pool configured for three helpers, none of which manage to start. -/
def markPool3 : MarkGlobals :=
  { available_markers_m1 := 3, marker_last_stack_min := [0, 0, 0] }

/-- Discovery-mode state whose sticky signal is currently raised. -/
def stickyG : Globals := { win32_dll_threads := true, attached_thread := true }

/-- The records `GC_push_all_stacks` scans: the eligible ones among the
visited slots (discovery) or chained records (explicit). -/
def scannedEligible (g : Globals) : List GC_Thread_Rep :=
  if g.win32_dll_threads then
    (g.dll_thread_table.take (GC_get_max_thread_index g + 1)).filter pushEligibleDll
  else g.threads.flatten.filter pushEligibleHash

/-- Explicit-mode registry holding the caller (id 1, sp 800 of stack
`[?, 1000)`) and a blocked worker (id 2, frozen sp 1500 of `[?, 2000)`). -/
def pushAllG : Globals :=
  { win32_dll_threads := false,
    threads := [[{ id := 1, stack_end := 1000, last_stack_min := 500 },
                 { id := 2, stack_end := 2000, stack_ptr := 1500,
                   do_blocking := true, last_stack_min := 900 }]] }

/-- A registered, finished (not yet joined) worker: stack range still
published, not blocking, not the caller. -/
def c1FinRec : GC_Thread_Rep := { id := 2, stack_end := 100, finished := true }

/-- Explicit-mode registry holding only the finished worker. -/
def c1CexG : Globals := { win32_dll_threads := false, threads := [[c1FinRec]] }

/-- The caller's record (id 1). -/
def c1SelfRec : GC_Thread_Rep := { id := 1, stack_end := 50 }

/-- An eligible worker whose suspension succeeds immediately. -/
def c1OkRec : GC_Thread_Rep :=
  { id := 2, stack_end := 100,
    os_attempts := fun _ => SuspendAttempt.ok [] 60 }

/-- Explicit-mode registry with the caller and one eligible worker. -/
def c1G : Globals :=
  { win32_dll_threads := false, threads := [[c1SelfRec, c1OkRec]] }

/-- C9: `GC_get_max_thread_index` always returns a value strictly below
`MAX_THREADS`; it is exactly the stored counter clamped to
`MAX_THREADS - 1`, so any loop index bounded by it stays within
`dll_thread_table`. -/
theorem GC_get_max_thread_index_lt (g : Globals) :
    GC_get_max_thread_index g < MAX_THREADS ∧
    GC_get_max_thread_index g = min g.max_thread_index (MAX_THREADS - 1) ∧
    ∀ i ≤ GC_get_max_thread_index g, i < MAX_THREADS := by
  unfold GC_get_max_thread_index MAX_THREADS
  constructor
  · split <;> omega
  constructor
  · split <;> omega
  · intro i hi
    revert hi
    split <;> omega

/-- C10: `GC_set_markers_count` silently clamps the stored marker count to
at most `MAX_MARKERS` and never reports an error (it is total and returns
no status): the stored value is `n` for `n < MAX_MARKERS` and
`MAX_MARKERS` otherwise, i.e. `min n MAX_MARKERS`. -/
theorem GC_set_markers_count_clamps (n : Nat) :
    GC_set_markers_count n ≤ MAX_MARKERS ∧
    GC_set_markers_count n = min n MAX_MARKERS := by
  unfold GC_set_markers_count MAX_MARKERS
  constructor
  · split <;> omega
  · split <;> omega

/-- Claim C5: for every thread that is already registered and still
running (its record is found and not `FINISHED`), a second
`GC_register_my_thread` call returns the distinct `GC_DUPLICATE` result
and leaves the whole registry state (both variants, every record field)
unchanged. -/
theorem GC_register_my_thread_duplicate (g : Globals) (self_id sb : Nat)
    (me : GC_Thread_Rep)
    (hlock : g.need_to_lock = true)
    (hfound : GC_lookup_thread g self_id = some me)
    (hfin : me.finished = false) :
    GC_register_my_thread g self_id sb = .ok (.duplicate, g) := by
  simp [GC_register_my_thread, hlock, hfound, hfin]

/-- Witness for C5: re-registering the running thread 7 yields
`GC_DUPLICATE` and the untouched state. -/
theorem GC_register_my_thread_duplicate_witness :
    GC_register_my_thread regDupG 7 555 = .ok (.duplicate, regDupG) :=
  GC_register_my_thread_duplicate regDupG 7 555 { id := 7, stack_end := 100 }
    rfl rfl rfl

/-- Evaluation of `GC_push_stack_for` on the cached fast path: with a set
cache below `sp` and `sp` inside the stack, the call pushes `[sp, B)`
without probing and without touching the record. -/
theorem push_cached_eq (os : OSMem) (fuel approx_sp self_id sp : Nat)
    (t : GC_Thread_Rep)
    (hsp : observedSp approx_sp self_id t = some sp)
    (htss : t.traced_stack_sect = 0)
    (hne : t.last_stack_min ≠ ADDR_LIMIT)
    (hA : t.last_stack_min ≤ sp) (hB : sp < t.stack_end) :
    GC_push_stack_for os fuel approx_sp self_id t =
      { pushed := some (sp, t.stack_end), cachedPath := true, probes := 0,
        thread := t, ret := t.stack_end - sp,
        found_me := decide (t.id = self_id) } := by
  obtain ⟨iu, idv, se, lsm, spt, csp, crg, tss, sus, blk, fin, det, osa, rok, lcx⟩ := t
  dsimp only at htss hne hA hB ⊢
  subst htss
  simp [GC_push_stack_for, hsp, hne, hA, hB]

/-- Evaluation of `GC_push_stack_for` on the fresh-record path: with an
unset cache the call probes once from `stack_end`, caches the result and,
when `sp` lies in the discovered range, pushes `[sp, B)`. -/
theorem push_fresh_eq (os : OSMem) (fuel approx_sp self_id sp m : Nat)
    (t : GC_Thread_Rep)
    (hsp : observedSp approx_sp self_id t = some sp)
    (htss : t.traced_stack_sect = 0)
    (hfresh : t.last_stack_min = ADDR_LIMIT)
    (hgsm : GC_get_stack_min os fuel t.stack_end = m)
    (hm : m ≤ sp) (hlt : sp < t.stack_end) :
    GC_push_stack_for os fuel approx_sp self_id t =
      { pushed := some (sp, t.stack_end), cachedPath := false, probes := 1,
        thread := { t with last_stack_min := m }, ret := t.stack_end - sp,
        found_me := decide (t.id = self_id) } := by
  simp [GC_push_stack_for, hsp, htss, hfresh, hgsm, hm, hlt]

/-- Claim C2: for every thread whose record has stack range `[A, B)`
(`last_stack_min = A`, `stack_end = B`) and whose captured stack pointer
`sp` satisfies `A ≤ sp < B`, `GC_push_stack_for` pushes exactly the range
`[sp, B)` — in particular the lower bound is `≤ sp` and the upper bound
equals `B`. -/
theorem GC_push_stack_for_in_range (os : OSMem) (fuel approx_sp self_id A B sp : Nat)
    (t : GC_Thread_Rep)
    (hmin : t.last_stack_min = A) (hend : t.stack_end = B)
    (htss : t.traced_stack_sect = 0)
    (hsp : observedSp approx_sp self_id t = some sp)
    (hA : A ≤ sp) (hB : sp < B) (hlim : B ≤ ADDR_LIMIT) :
    (GC_push_stack_for os fuel approx_sp self_id t).pushed = some (sp, B) := by
  have hne : t.last_stack_min ≠ ADDR_LIMIT := by rw [hmin]; omega
  have h := push_cached_eq os fuel approx_sp self_id sp t hsp htss hne
      (by rw [hmin]; exact hA) (by rw [hend]; exact hB)
  rw [h, hend]

/-- Witness for C2: the blocked thread's stack is pushed as `[700, 1000)`. -/
theorem GC_push_stack_for_in_range_witness :
    (GC_push_stack_for osFlat 0 880 1 blockedRec).pushed = some (700, 1000) :=
  GC_push_stack_for_in_range osFlat 0 880 1 500 1000 700 blockedRec
    rfl rfl rfl rfl (by decide) (by decide) (by decide)

/-- `observedSp` only reads fields that the stack-minimum cache update
leaves untouched. -/
theorem observedSp_update_min (approx_sp self_id v : Nat) (t : GC_Thread_Rep) :
    observedSp approx_sp self_id { t with last_stack_min := v } =
      observedSp approx_sp self_id t := rfl

/-- Claim C4: stack-minimum discovery is idempotent under an unchanged
stack: starting from an unset cache (`last_stack_min = ADDR_LIMIT`), two
consecutive `GC_push_stack_for` calls with the same `sp` and `stack_end`
push the same lower bound, and the second call takes the cached fast path
(`sp` within `[last_stack_min, stack_end)`) and performs no
`VirtualQuery` probing (`GC_get_stack_min`/`may_be_in_stack` are not
invoked: probe count 0). -/
theorem GC_push_stack_for_idempotent (os : OSMem)
    (fuel approx_sp self_id sp m : Nat) (t : GC_Thread_Rep)
    (htss : t.traced_stack_sect = 0)
    (hfresh : t.last_stack_min = ADDR_LIMIT)
    (hsp : observedSp approx_sp self_id t = some sp)
    (hgsm : GC_get_stack_min os fuel t.stack_end = m)
    (hm : m ≤ sp) (hlt : sp < t.stack_end) (hlim : t.stack_end ≤ ADDR_LIMIT) :
    (GC_push_stack_for os fuel approx_sp self_id t).pushed =
        some (sp, t.stack_end) ∧
    (GC_push_stack_for os fuel approx_sp self_id
        (GC_push_stack_for os fuel approx_sp self_id t).thread).pushed =
      some (sp, t.stack_end) ∧
    (GC_push_stack_for os fuel approx_sp self_id
        (GC_push_stack_for os fuel approx_sp self_id t).thread).cachedPath
      = true ∧
    (GC_push_stack_for os fuel approx_sp self_id
        (GC_push_stack_for os fuel approx_sp self_id t).thread).probes = 0 := by
  have h1 := push_fresh_eq os fuel approx_sp self_id sp m t hsp htss hfresh hgsm hm hlt
  have hsp2 : observedSp approx_sp self_id { t with last_stack_min := m } = some sp := by
    rw [observedSp_update_min]; exact hsp
  have hmne : ({ t with last_stack_min := m } : GC_Thread_Rep).last_stack_min
      ≠ ADDR_LIMIT := by
    show m ≠ ADDR_LIMIT; omega
  have h2 := push_cached_eq os fuel approx_sp self_id sp
      { t with last_stack_min := m } hsp2 htss hmne hm hlt
  refine ⟨by rw [h1], ?_, ?_, ?_⟩ <;> rw [h1]
  · show (GC_push_stack_for os fuel approx_sp self_id
        { t with last_stack_min := m }).pushed = some (sp, t.stack_end)
    rw [h2]
  · show (GC_push_stack_for os fuel approx_sp self_id
        { t with last_stack_min := m }).cachedPath = true
    rw [h2]
  · show (GC_push_stack_for os fuel approx_sp self_id
        { t with last_stack_min := m }).probes = 0
    rw [h2]

/-- Witness for C4: with the probed minimum 400 and sp 700, both calls
push `[700, 1000)` and the second call is a probe-free cache hit. -/
theorem GC_push_stack_for_idempotent_witness :
    (GC_push_stack_for osFlat 0 880 1 freshBlockedRec).pushed =
        some (700, 1000) ∧
    (GC_push_stack_for osFlat 0 880 1
        (GC_push_stack_for osFlat 0 880 1 freshBlockedRec).thread).pushed =
      some (700, 1000) ∧
    (GC_push_stack_for osFlat 0 880 1
        (GC_push_stack_for osFlat 0 880 1 freshBlockedRec).thread).cachedPath
      = true ∧
    (GC_push_stack_for osFlat 0 880 1
        (GC_push_stack_for osFlat 0 880 1 freshBlockedRec).thread).probes = 0 :=
  GC_push_stack_for_idempotent osFlat 0 880 1 700 400 freshBlockedRec
    rfl rfl rfl rfl (by decide) (by decide) (by decide)

/-- If every attempt in scope is a transient failure (a failing
`SuspendThread` or a failing `GetThreadContext` with successful
compensating resume), the retry loop exhausts its budget and aborts. -/
theorem suspendLoopAux_allFail (env : Nat → SuspendAttempt) :
    ∀ fuel cnt,
      (∀ k, cnt ≤ k → k ≤ cnt + fuel →
         env k = .suspendFail ∨ env k = .ctxFail true) →
      suspendLoopAux env fuel cnt = .abortRetries := by
  intro fuel
  induction fuel with
  | zero =>
    intro cnt h
    rcases h cnt le_rfl (by omega) with h1 | h1 <;> simp [suspendLoopAux, h1]
  | succ n ih =>
    intro cnt h
    rcases h cnt le_rfl (by omega) with h1 | h1 <;>
      simp only [suspendLoopAux, h1, if_pos] <;>
      exact ih (cnt + 1) (fun k hk1 hk2 => h k (by omega) (by omega))

/-- If the first non-transient attempt in scope is a successful capture,
the retry loop returns that capture. -/
theorem suspendLoopAux_firstSuccess (env : Nat → SuspendAttempt)
    (regs : List Nat) (sp : Nat) :
    ∀ fuel cnt j, cnt ≤ j → j ≤ cnt + fuel →
      (∀ k, cnt ≤ k → k < j → env k = .suspendFail ∨ env k = .ctxFail true) →
      env j = .ok regs sp →
      suspendLoopAux env fuel cnt = .captured regs sp := by
  intro fuel
  induction fuel with
  | zero =>
    intro cnt j h1 h2 hk hj
    have hcj : j = cnt := by omega
    subst hcj
    simp [suspendLoopAux, hj]
  | succ n ih =>
    intro cnt j h1 h2 hk hj
    by_cases hc : j = cnt
    · subst hc; simp [suspendLoopAux, hj]
    · rcases hk cnt le_rfl (by omega) with h1' | h1' <;>
        simp only [suspendLoopAux, h1', if_pos] <;>
        exact ih (cnt + 1) j (by omega) (by omega)
          (fun k hk1 hk2 => hk k (by omega) hk2) hj

/-- Claim C7: the suspend-retry loop of `GC_suspend` is bounded.  If every
attempt up to the fixed budget `MAX_SUSPEND_THREAD_RETRIES` (1000*1000)
fails transiently, the loop aborts the process rather than looping
forever; and when some attempt within the budget succeeds after only
transient failures, `GC_suspend` returns the record with the register
snapshot and stack pointer captured and the `SUSPENDED` flag set. -/
theorem GC_suspend_retry_bounded (env1 env2 : Nat → SuspendAttempt)
    (mode : Mode) (t : GC_Thread_Rep) (regs : List Nat) (sp j : Nat)
    (hall : ∀ k < MAX_SUSPEND_THREAD_RETRIES,
       env1 k = .suspendFail ∨ env1 k = .ctxFail true)
    (hj : j < MAX_SUSPEND_THREAD_RETRIES)
    (hpre : ∀ k < j, env2 k = .suspendFail ∨ env2 k = .ctxFail true)
    (hsucc : env2 j = .ok regs sp)
    (ht : t.os_attempts = env2) :
    GC_suspend_loop env1 = .abortRetries ∧
    GC_suspend mode t =
      .ok { t with context_regs := regs, context_sp := sp,
                   suspended := true } := by
  have hM : MAX_SUSPEND_THREAD_RETRIES = 1000 * 1000 := rfl
  constructor
  · exact suspendLoopAux_allFail env1 (MAX_SUSPEND_THREAD_RETRIES - 1) 0
      (fun k hk1 hk2 => hall k (by omega))
  · have hcap : GC_suspend_loop env2 = .captured regs sp :=
      suspendLoopAux_firstSuccess env2 regs sp (MAX_SUSPEND_THREAD_RETRIES - 1)
        0 j (by omega) (by omega) (fun k hk1 hk2 => hpre k hk2) hsucc
    unfold GC_suspend
    rw [ht, hcap]

/-- Witness for C7: a thread whose suspension always fails exhausts the
budget and aborts; one that succeeds immediately comes back suspended with
its snapshot stored. -/
theorem GC_suspend_retry_bounded_witness :
    GC_suspend_loop (fun _ => .suspendFail) = .abortRetries ∧
    GC_suspend .discovery
        { os_attempts := fun _ => SuspendAttempt.ok [1, 2] 42 } =
      .ok { os_attempts := fun _ => SuspendAttempt.ok [1, 2] 42,
            context_regs := [1, 2], context_sp := 42, suspended := true } :=
  GC_suspend_retry_bounded (fun _ => .suspendFail)
    (fun _ => SuspendAttempt.ok [1, 2] 42) .discovery
    { os_attempts := fun _ => SuspendAttempt.ok [1, 2] 42 } [1, 2] 42 0
    (fun k _ => Or.inl rfl) (by decide)
    (fun k hk => absurd hk (Nat.not_lt_zero k)) rfl rfl

/-- The spawn loop stops exactly at the first failing helper index. -/
theorem firstSpawnFailure_spec (spawnOk : Nat → Bool) :
    ∀ rem i j, i ≤ j → j < i + rem →
      (∀ k, i ≤ k → k < j → spawnOk k = true) → spawnOk j = false →
      firstSpawnFailure spawnOk rem i = j := by
  intro rem
  induction rem with
  | zero => intro i j h1 h2 _ _; omega
  | succ n ih =>
    intro i j h1 h2 hk hj
    by_cases hc : j = i
    · subst hc; simp [firstSpawnFailure, hj]
    · have hoks : spawnOk i = true := hk i le_rfl (by omega)
      simp only [firstSpawnFailure, hoks, if_pos]
      exact ih (i + 1) j (by omega) (by omega)
        (fun k hk1 hk2 => hk k (by omega) hk2) hj

/-- Claim C8: when the `i`-th helper thread fails to start in
`GC_start_mark_threads_inner`, the marker count `GC_markers_m1` is shrunk
to the number `i` that started successfully instead of aborting, the
per-helper events already created for the unstarted helpers are closed
(only the first `i` events stay open), and when zero helpers start the
pool's three shared signal objects are closed as well and `GC_parallel`
stays off for the process lifetime (its external enabling, modelled from
the spec by `GC_enable_parallel`, requires `GC_markers_m1 > 0`). -/
theorem GC_start_mark_threads_inner_shrinks (eventOk spawnOk : Nat → Bool)
    (m : MarkGlobals) (i : Nat)
    (havail : 0 < m.available_markers_m1)
    (hpar : m.parallel = false)
    (hev : ∀ k < m.available_markers_m1.toNat, eventOk k = true)
    (hi : i < m.available_markers_m1.toNat)
    (hspawn : ∀ k < i, spawnOk k = true)
    (hfail : spawnOk i = false) :
    ∃ m', GC_start_mark_threads_inner eventOk spawnOk m = .ok m' ∧
      m'.markers_m1 = (i : Int) ∧
      m'.marker_cv = (List.range m.available_markers_m1.toNat).map
          (fun k => decide (k < i)) ∧
      (i = 0 → m'.mark_cv_open = false ∧ m'.builder_cv_open = false ∧
        m'.mark_mutex_event_open = false ∧
        (GC_enable_parallel m').parallel = false) := by
  have hne : ¬ m.available_markers_m1 ≤ 0 := by omega
  have hall : (List.range m.available_markers_m1.toNat).all eventOk = true := by
    rw [List.all_eq_true]
    intro k hk
    exact hev k (List.mem_range.mp hk)
  have hfsf : firstSpawnFailure spawnOk m.available_markers_m1.toNat 0 = i :=
    firstSpawnFailure_spec spawnOk m.available_markers_m1.toNat 0 i
      (Nat.zero_le i) (by omega) (fun k _ hk => hspawn k hk) hfail
  have hc1 : (decide (m.available_markers_m1 ≤ 0) || m.parallel) = false := by
    simp [hpar, hne]
  have hc2 : (!(List.range m.available_markers_m1.toNat).all eventOk) = false := by
    simp [hall]
  refine ⟨{ m with
      markers_m1 := (i : Int),
      marker_cv := (List.range m.available_markers_m1.toNat).map
        (fun k => decide (k < i)),
      marker_last_stack_min := (List.range m.available_markers_m1.toNat).map
        (fun k => if k < min (i + 1) m.available_markers_m1.toNat then ADDR_LIMIT
                  else m.marker_last_stack_min.getD k 0),
      mark_cv_open := if i = 0 then false else m.mark_cv_open,
      builder_cv_open := if i = 0 then false else m.builder_cv_open,
      mark_mutex_event_open :=
        if i = 0 then false else m.mark_mutex_event_open }, ?_, rfl, rfl, ?_⟩
  · simp only [GC_start_mark_threads_inner, hc1, hc2, hfsf,
      Bool.false_eq_true, if_false]
  · intro hzero
    subst hzero
    refine ⟨rfl, rfl, rfl, ?_⟩
    simp [GC_enable_parallel, hpar]

/-- Witness for C8: with every `_beginthreadex` failing, the pool shrinks
to zero markers, all three helper events and the three shared signal
objects are closed, and parallel marking stays off. -/
theorem GC_start_mark_threads_inner_shrinks_witness :
    ∃ m', GC_start_mark_threads_inner (fun _ => true) (fun _ => false)
        markPool3 = .ok m' ∧
      m'.markers_m1 = ((0 : Nat) : Int) ∧
      m'.marker_cv = (List.range markPool3.available_markers_m1.toNat).map
          (fun k => decide (k < 0)) ∧
      ((0 : Nat) = 0 → m'.mark_cv_open = false ∧ m'.builder_cv_open = false ∧
        m'.mark_mutex_event_open = false ∧
        (GC_enable_parallel m').parallel = false) :=
  GC_start_mark_threads_inner_shrinks (fun _ => true) (fun _ => false)
    markPool3 0 (by decide) rfl (fun k _ => rfl) (by decide)
    (fun k hk => absurd hk (Nat.not_lt_zero k)) rfl

/-- Flag effect of a successful discovery-mode registration: the sticky
signal is raised exactly when `GC_please_stop` was on, and neither the
stop flag nor the mode changes. -/
theorem reg_inner_flags (g g' : Globals) (id sb : Nat)
    (hdll : g.win32_dll_threads = true)
    (h : GC_register_my_thread_inner g id sb = .ok g') :
    g'.attached_thread = (g.attached_thread || g.please_stop) ∧
    g'.please_stop = g.please_stop ∧ g'.win32_dll_threads = true := by
  by_cases hsb : sb = 0
  · simp [GC_register_my_thread_inner, hsb] at h
  · simp only [GC_register_my_thread_inner, hsb, hdll, if_true, if_false] at h
    cases hidx : g.dll_thread_table.findIdx? (fun t => !t.in_use) with
    | none => rw [hidx] at h; simp at h
    | some i =>
      rw [hidx] at h
      injection h with h
      subst h
      exact ⟨rfl, rfl, rfl⟩

/-- A successful `GC_stop_world` in discovery mode comes back with the
sticky signal reset, the stop flag raised, the mode and the maximum index
unchanged. -/
theorem stop_world_flags (g g2 : Globals) (s : Nat)
    (hdll : g.win32_dll_threads = true)
    (h : GC_stop_world s g = .ok g2) :
    g2.attached_thread = false ∧ g2.please_stop = true ∧
    g2.win32_dll_threads = true ∧ g2.max_thread_index = g.max_thread_index := by
  unfold GC_stop_world at h
  dsimp only at h
  rw [hdll, if_pos rfl] at h
  split at h
  · injection h with h
    subst h
    exact ⟨rfl, rfl, rfl, rfl⟩
  · simp at h

/-- A successful `GC_start_world` keeps the sticky signal and the mode and
drops the stop flag. -/
theorem start_world_flags (g : Globals) (gc : Globals × List Nat)
    (h : GC_start_world g = .ok gc) :
    gc.1.attached_thread = g.attached_thread ∧ gc.1.please_stop = false ∧
    gc.1.win32_dll_threads = g.win32_dll_threads := by
  unfold GC_start_world at h
  cases hdll : g.win32_dll_threads <;> rw [hdll] at h
  · simp only [Bool.false_eq_true, if_false] at h
    split at h
    · injection h with h
      subst h
      exact ⟨rfl, rfl, rfl⟩
    · simp at h
  · rw [if_pos rfl] at h
    split at h
    · injection h with h
      subst h
      exact ⟨rfl, rfl, rfl⟩
    · simp at h

/-- In discovery mode the query returns the sticky signal and clears it. -/
theorem check_clears (g : Globals) (hdll : g.win32_dll_threads = true) :
    GC_started_thread_while_stopped g =
      (g.attached_thread, { g with attached_thread := false }) := by
  obtain ⟨dll, tbl, mx, ths, hf, att, ps, ntl, itc, ftu, ao, ts⟩ := g
  dsimp only at hdll
  subst hdll
  cases att <;> simp [GC_started_thread_while_stopped]

/-- The answers of the `GC_started_thread_while_stopped` queries along any
successfully executed serialized trace coincide with the spec's sticky
signal. -/
theorem runEvents_sticky (tr : List GEv) :
    ∀ g g' outs, g.win32_dll_threads = true →
      runEvents g tr = .ok (g', outs) →
      outs = stickySpecRun g.attached_thread g.please_stop tr := by
  induction tr with
  | nil =>
    intro g g' outs hdll h
    simp only [runEvents] at h
    injection h with h
    injection h with h1 h2
    subst h2
    rfl
  | cons e es ih =>
    intro g g' outs hdll h
    simp only [runEvents] at h
    cases e with
    | reg id sb =>
      simp only [stepEv] at h
      cases hreg : GC_register_my_thread_inner g id sb with
      | error e0 => rw [hreg] at h; simp at h
      | ok g1 =>
        rw [hreg] at h
        dsimp only at h
        cases hrun : runEvents g1 es with
        | error e0 => rw [hrun] at h; simp at h
        | ok gr =>
          rw [hrun] at h
          dsimp only at h
          injection h with h
          injection h with h1 h2
          subst h2
          obtain ⟨hf1, hf2, hf3⟩ := reg_inner_flags g g1 id sb hdll hreg
          have htail := ih g1 gr.1 gr.2 hf3 (by rw [hrun])
          simp only [stickySpecRun]
          rw [htail, hf1, hf2]
    | stopW s =>
      simp only [stepEv] at h
      cases hstp : GC_stop_world s g with
      | error e0 => rw [hstp] at h; simp at h
      | ok g1 =>
        rw [hstp] at h
        dsimp only at h
        cases hrun : runEvents g1 es with
        | error e0 => rw [hrun] at h; simp at h
        | ok gr =>
          rw [hrun] at h
          dsimp only at h
          injection h with h
          injection h with h1 h2
          subst h2
          obtain ⟨hf1, hf2, hf3, _⟩ := stop_world_flags g g1 s hdll hstp
          have htail := ih g1 gr.1 gr.2 hf3 (by rw [hrun])
          simp only [stickySpecRun]
          rw [htail, hf1, hf2]
    | startW =>
      simp only [stepEv] at h
      cases hstw : GC_start_world g with
      | error e0 => rw [hstw] at h; simp at h
      | ok gc =>
        rw [hstw] at h
        dsimp only at h
        cases hrun : runEvents gc.1 es with
        | error e0 => rw [hrun] at h; simp at h
        | ok gr =>
          rw [hrun] at h
          dsimp only at h
          injection h with h
          injection h with h1 h2
          subst h2
          obtain ⟨hf1, hf2, hf3⟩ := start_world_flags g gc hstw
          have htail := ih gc.1 gr.1 gr.2 (by rw [hf3]; exact hdll)
            (by rw [hrun])
          simp only [stickySpecRun]
          rw [htail, hf1, hf2]
    | chk =>
      simp only [stepEv, check_clears g hdll] at h
      cases hrun : runEvents { g with attached_thread := false } es with
      | error e0 => rw [hrun] at h; simp at h
      | ok gr =>
        rw [hrun] at h
        dsimp only at h
        injection h with h
        injection h with h1 h2
        subst h2
        have htail := ih { g with attached_thread := false } gr.1 gr.2 hdll
          (by rw [hrun])
        dsimp only at htail
        simp only [stickySpecRun]
        rw [htail]

/-- Claim C6: in discovery mode, a thread that registers while a stop is
in progress (`GC_please_stop` set) raises the sticky `GC_attached_thread`
signal; `GC_started_thread_while_stopped` returns the signal and clears it
in the same step, and along any serialized trace of
registrations/stops/starts/queries its answers are true exactly when such
an attachment happened since the last reset (`stickySpecRun`, the spec's
sticky-signal recursion); and the signal is reset by the start of each
`GC_stop_world`. -/
theorem GC_attached_thread_protocol (g : Globals) (tr : List GEv)
    (g' : Globals) (outs : List Bool)
    (hdll : g.win32_dll_threads = true)
    (hrun : runEvents g tr = .ok (g', outs)) :
    outs = stickySpecRun g.attached_thread g.please_stop tr ∧
    (∀ id sb g1, g.please_stop = true →
       GC_register_my_thread_inner g id sb = .ok g1 →
       g1.attached_thread = true) ∧
    GC_started_thread_while_stopped g =
      (g.attached_thread, { g with attached_thread := false }) ∧
    (∀ s g2, GC_stop_world s g = .ok g2 → g2.attached_thread = false) := by
  refine ⟨runEvents_sticky tr g g' outs hdll hrun, ?_, check_clears g hdll, ?_⟩
  · intro id sb g1 hps hreg
    obtain ⟨h1, _, _⟩ := reg_inner_flags g g1 id sb hdll hreg
    rw [h1, hps, Bool.or_true]
  · intro s g2 hstp
    exact (stop_world_flags g g2 s hdll hstp).1

/-- Witness for C6: a single query on a raised signal answers `true`,
matching the spec recursion. -/
theorem GC_attached_thread_protocol_witness :
    ([true] : List Bool) =
      stickySpecRun stickyG.attached_thread stickyG.please_stop [GEv.chk] :=
  (GC_attached_thread_protocol stickyG [GEv.chk]
      { stickyG with attached_thread := false } [true] rfl rfl).1

/-- `GC_push_stack_for` returns `stack_end - sp` for the observed `sp`. -/
theorem push_ret (os : OSMem) (fuel approx_sp self_id sp : Nat)
    (t : GC_Thread_Rep) (h : observedSp approx_sp self_id t = some sp) :
    (GC_push_stack_for os fuel approx_sp self_id t).ret = t.stack_end - sp := by
  simp only [GC_push_stack_for, h]
  repeat' split
  all_goals rfl

/-- `GC_push_stack_for` reports the caller exactly when the record's id is
the caller's id (a skipped thread is never the caller: the caller's sp is
taken directly). -/
theorem push_found (os : OSMem) (fuel approx_sp self_id : Nat)
    (t : GC_Thread_Rep) :
    (GC_push_stack_for os fuel approx_sp self_id t).found_me =
      decide (t.id = self_id) := by
  cases h : observedSp approx_sp self_id t with
  | some sp =>
    simp only [GC_push_stack_for, h]
    repeat' split
    all_goals rfl
  | none =>
    have hid : ¬ t.id = self_id := by
      intro he
      simp [observedSp, he] at h
    simp only [GC_push_stack_for, h]
    simp [hid]

/-- Pointwise rewriting of the per-record byte counts. -/
theorem map_ret_eq (os : OSMem) (fuel approx_sp self_id : Nat) :
    ∀ l : List GC_Thread_Rep,
      (∀ p ∈ l, (observedSp approx_sp self_id p).isSome = true) →
      l.map (fun p => (GC_push_stack_for os fuel approx_sp self_id p).ret) =
        l.map (fun p => p.stack_end - (observedSp approx_sp self_id p).getD 0) := by
  intro l
  induction l with
  | nil => intro _; rfl
  | cons p rest ih =>
    intro hl
    have hpmem : (observedSp approx_sp self_id p).isSome = true :=
      hl p (by simp)
    obtain ⟨sp, hsp⟩ := Option.isSome_iff_exists.mp hpmem
    simp only [List.map_cons]
    rw [push_ret os fuel approx_sp self_id sp p hsp, hsp,
      ih (fun q hq => hl q (by simp [hq]))]
    rfl

/-- The caller test as a function equality. -/
theorem found_fun_eq (os : OSMem) (fuel approx_sp self_id : Nat) :
    (fun p => (GC_push_stack_for os fuel approx_sp self_id p).found_me) =
      (fun p : GC_Thread_Rep => decide (p.id = self_id)) := by
  funext p
  exact push_found os fuel approx_sp self_id p

/-- Accumulator characterization of the explicit-mode chain loop. -/
theorem pushChain_stats (os : OSMem) (fuel approx_sp self_id : Nat) :
    ∀ l : List GC_Thread_Rep,
      (pushChain os fuel approx_sp self_id l).total =
        ((l.filter pushEligibleHash).map
          (fun p => (GC_push_stack_for os fuel approx_sp self_id p).ret)).sum ∧
      (pushChain os fuel approx_sp self_id l).nthreads =
        (l.filter pushEligibleHash).length ∧
      (pushChain os fuel approx_sp self_id l).found_me =
        (l.filter pushEligibleHash).any
          (fun p => (GC_push_stack_for os fuel approx_sp self_id p).found_me) := by
  intro l
  induction l with
  | nil => exact ⟨rfl, rfl, rfl⟩
  | cons p rest ih =>
    obtain ⟨ih1, ih2, ih3⟩ := ih
    by_cases hp : pushEligibleHash p = true
    · simp [pushChain, hp, List.filter_cons, ih1, ih2, ih3]
    · simp [pushChain, hp, List.filter_cons, ih1, ih2, ih3]

/-- Accumulator characterization of the discovery-mode loop up to the
iteration bound. -/
theorem pushDllTable_stats (os : OSMem) (fuel approx_sp self_id : Nat) :
    ∀ (l : List GC_Thread_Rep) (bound : Nat),
      (pushDllTable os fuel approx_sp self_id bound l).total =
        (((l.take bound).filter pushEligibleDll).map
          (fun p => (GC_push_stack_for os fuel approx_sp self_id p).ret)).sum ∧
      (pushDllTable os fuel approx_sp self_id bound l).nthreads =
        ((l.take bound).filter pushEligibleDll).length ∧
      (pushDllTable os fuel approx_sp self_id bound l).found_me =
        ((l.take bound).filter pushEligibleDll).any
          (fun p => (GC_push_stack_for os fuel approx_sp self_id p).found_me) := by
  intro l
  induction l with
  | nil =>
    intro bound
    cases bound <;> exact ⟨rfl, rfl, rfl⟩
  | cons p rest ih =>
    intro bound
    cases bound with
    | zero => exact ⟨rfl, rfl, rfl⟩
    | succ b =>
      obtain ⟨ih1, ih2, ih3⟩ := ih b
      by_cases hp : pushEligibleDll p = true
      · simp [pushDllTable, hp, List.filter_cons, ih1, ih2, ih3]
      · simp [pushDllTable, hp, List.filter_cons, ih1, ih2, ih3]

/-- Accumulator characterization of the explicit-mode loop over all
buckets. -/
theorem pushBuckets_stats (os : OSMem) (fuel approx_sp self_id : Nat) :
    ∀ bs : List (List GC_Thread_Rep),
      (pushBuckets os fuel approx_sp self_id bs).total =
        ((bs.flatten.filter pushEligibleHash).map
          (fun p => (GC_push_stack_for os fuel approx_sp self_id p).ret)).sum ∧
      (pushBuckets os fuel approx_sp self_id bs).nthreads =
        (bs.flatten.filter pushEligibleHash).length ∧
      (pushBuckets os fuel approx_sp self_id bs).found_me =
        (bs.flatten.filter pushEligibleHash).any
          (fun p => (GC_push_stack_for os fuel approx_sp self_id p).found_me) := by
  intro bs
  induction bs with
  | nil => exact ⟨rfl, rfl, rfl⟩
  | cons c cs ih =>
    obtain ⟨ih1, ih2, ih3⟩ := ih
    obtain ⟨hc1, hc2, hc3⟩ := pushChain_stats os fuel approx_sp self_id c
    simp [pushBuckets, List.filter_append, ih1, ih2, ih3, hc1, hc2, hc3,
      List.any_append]

/-- Claim C3: `GC_push_all_stacks`, over all registered threads eligible
for scanning (stack range set; in-use slots up to the iteration bound in
discovery mode, non-`FINISHED` chained records in explicit mode), stores
in `GC_total_stacksize` the sum over those threads of
`stack_end - observed_sp`, and aborts exactly when the calling thread's
own record was not among those scanned and `GC_in_thread_creation` is not
set; the number of scanned threads is the number of eligible records, so
after M threads plus the initiator register and stop the world, all M + 1
are scanned and `found_me` is true.  (`hle` scopes the statement to the
scenarios the claim quantifies over, where the pointer difference
`stack_end - sp` does not wrap.) -/
theorem GC_push_all_stacks_accounts (os : OSMem) (fuel approx_sp self_id : Nat)
    (g : Globals)
    (hsp : ∀ p ∈ scannedEligible g, (observedSp approx_sp self_id p).isSome = true)
    (hle : ∀ p ∈ scannedEligible g,
       (observedSp approx_sp self_id p).getD 0 ≤ p.stack_end) :
    (GC_push_all_stacks os fuel approx_sp self_id g =
        .error .collectingFromUnknownThread ↔
      (scannedEligible g).any (fun p => decide (p.id = self_id)) = false ∧
        g.in_thread_creation = false) ∧
    (∀ g' n found,
       GC_push_all_stacks os fuel approx_sp self_id g = .ok (g', n, found) →
       g'.total_stacksize = ((scannedEligible g).map
           (fun p => p.stack_end - (observedSp approx_sp self_id p).getD 0)).sum ∧
       n = (scannedEligible g).length ∧
       found = (scannedEligible g).any (fun p => decide (p.id = self_id))) := by
  cases hdll : g.win32_dll_threads with
  | false =>
    have hse : scannedEligible g = g.threads.flatten.filter pushEligibleHash := by
      simp [scannedEligible, hdll]
    obtain ⟨ht, hn, hf⟩ := pushBuckets_stats os fuel approx_sp self_id g.threads
    have hf2 : (pushBuckets os fuel approx_sp self_id g.threads).found_me =
        (scannedEligible g).any (fun p => decide (p.id = self_id)) := by
      rw [hf, found_fun_eq os fuel approx_sp self_id, hse]
    have ht2 : (pushBuckets os fuel approx_sp self_id g.threads).total =
        ((scannedEligible g).map
          (fun p => p.stack_end - (observedSp approx_sp self_id p).getD 0)).sum := by
      rw [ht, ← hse, map_ret_eq os fuel approx_sp self_id (scannedEligible g) hsp]
    have hn2 : (pushBuckets os fuel approx_sp self_id g.threads).nthreads =
        (scannedEligible g).length := by
      rw [hn, hse]
    simp only [GC_push_all_stacks, hdll, Bool.false_eq_true, if_false]
    cases hcond : ((!(pushBuckets os fuel approx_sp self_id g.threads).found_me)
        && !g.in_thread_creation) with
    | true =>
      rw [if_pos rfl]
      have hab : (pushBuckets os fuel approx_sp self_id g.threads).found_me
          = false ∧ g.in_thread_creation = false := by
        simpa using hcond
      refine ⟨⟨fun _ => ?_, fun _ => rfl⟩, ?_⟩
      · exact ⟨by rw [← hf2]; exact hab.1, hab.2⟩
      · intro g' n found heq
        exact absurd heq (by simp)
    | false =>
      rw [if_neg (by simp)]
      refine ⟨⟨fun heq => absurd heq (by simp), ?_⟩, ?_⟩
      · rintro ⟨hany, hitc⟩
        have hT : ((!(pushBuckets os fuel approx_sp self_id g.threads).found_me)
            && !g.in_thread_creation) = true := by
          rw [hf2, hany, hitc]
          rfl
        rw [hcond] at hT
        exact absurd hT (by simp)
      · intro g' n found heq
        injection heq with heq
        injection heq with h1 h2
        injection h2 with h2 h3
        subst h1
        subst h2
        subst h3
        exact ⟨ht2, hn2, hf2⟩
  | true =>
    have hse : scannedEligible g =
        (g.dll_thread_table.take (GC_get_max_thread_index g + 1)).filter
          pushEligibleDll := by
      simp [scannedEligible, hdll]
    obtain ⟨ht, hn, hf⟩ := pushDllTable_stats os fuel approx_sp self_id
      g.dll_thread_table (GC_get_max_thread_index g + 1)
    have hf2 : (pushDllTable os fuel approx_sp self_id
          (GC_get_max_thread_index g + 1) g.dll_thread_table).found_me =
        (scannedEligible g).any (fun p => decide (p.id = self_id)) := by
      rw [hf, found_fun_eq os fuel approx_sp self_id, hse]
    have ht2 : (pushDllTable os fuel approx_sp self_id
          (GC_get_max_thread_index g + 1) g.dll_thread_table).total =
        ((scannedEligible g).map
          (fun p => p.stack_end - (observedSp approx_sp self_id p).getD 0)).sum := by
      rw [ht, ← hse, map_ret_eq os fuel approx_sp self_id (scannedEligible g) hsp]
    have hn2 : (pushDllTable os fuel approx_sp self_id
          (GC_get_max_thread_index g + 1) g.dll_thread_table).nthreads =
        (scannedEligible g).length := by
      rw [hn, hse]
    simp only [GC_push_all_stacks, hdll, if_true]
    cases hcond : ((!(pushDllTable os fuel approx_sp self_id
        (GC_get_max_thread_index g + 1) g.dll_thread_table).found_me)
        && !g.in_thread_creation) with
    | true =>
      rw [if_pos rfl]
      have hab : (pushDllTable os fuel approx_sp self_id
          (GC_get_max_thread_index g + 1) g.dll_thread_table).found_me
          = false ∧ g.in_thread_creation = false := by
        simpa using hcond
      refine ⟨⟨fun _ => ?_, fun _ => rfl⟩, ?_⟩
      · exact ⟨by rw [← hf2]; exact hab.1, hab.2⟩
      · intro g' n found heq
        exact absurd heq (by simp)
    | false =>
      rw [if_neg (by simp)]
      refine ⟨⟨fun heq => absurd heq (by simp), ?_⟩, ?_⟩
      · rintro ⟨hany, hitc⟩
        have hT : ((!(pushDllTable os fuel approx_sp self_id
            (GC_get_max_thread_index g + 1) g.dll_thread_table).found_me)
            && !g.in_thread_creation) = true := by
          rw [hf2, hany, hitc]
          rfl
        rw [hcond] at hT
        exact absurd hT (by simp)
      · intro g' n found heq
        injection heq with heq
        injection heq with h1 h2
        injection h2 with h2 h3
        subst h1
        subst h2
        subst h3
        exact ⟨ht2, hn2, hf2⟩

/-- Witness for C3: on the concrete two-thread registry the abort
characterization holds (and indeed the caller is found, so no abort). -/
theorem GC_push_all_stacks_accounts_witness :
    GC_push_all_stacks osFlat 0 800 1 pushAllG =
        .error .collectingFromUnknownThread ↔
      (scannedEligible pushAllG).any (fun p => decide (p.id = 1)) = false ∧
        pushAllG.in_thread_creation = false :=
  (GC_push_all_stacks_accounts osFlat 0 800 1 pushAllG
    (by decide) (by decide)).1

/-- A suspend loop that captures a context makes `GC_suspend` mark the
record suspended with the snapshot stored. -/
theorem GC_suspend_success (mode : Mode) (p : GC_Thread_Rep)
    (regs : List Nat) (sp : Nat)
    (h : GC_suspend_loop p.os_attempts = .captured regs sp) :
    GC_suspend mode p =
      .ok { p with context_regs := regs, context_sp := sp,
                   suspended := true } := by
  unfold GC_suspend
  rw [h]

/-- A suspended record with a working `ResumeThread` is resumed once. -/
theorem resumeRecord_suspended (q : GC_Thread_Rep) (hq : q.suspended = true)
    (hr : q.resume_ok = true) :
    resumeRecord q = .ok ({ q with suspended := false }, 1) := by
  unfold resumeRecord
  rw [if_pos hq, if_pos hr]

/-- An unsuspended record receives no `ResumeThread` call. -/
theorem resumeRecord_idle (q : GC_Thread_Rep) (hq : q.suspended = false) :
    resumeRecord q = .ok (q, 0) := by
  unfold resumeRecord
  rw [if_neg (by rw [hq]; exact Bool.noConfusion)]

/-- Roundtrip of one explicit-mode hash chain: suspension marks exactly
the eligible records, resumption issues exactly one `ResumeThread` per
eligible record and none otherwise, and afterwards no record of the chain
is suspended. -/
theorem chain_roundtrip (s : Nat) :
    ∀ l : List GC_Thread_Rep,
      (∀ p ∈ l, p.suspended = false) →
      (∀ p ∈ l, stopEligibleHash s p = true →
        ∃ regs sp, GC_suspend_loop p.os_attempts = .captured regs sp) →
      (∀ p ∈ l, p.resume_ok = true) →
      ∃ l1, suspendChain s l = .ok l1 ∧
        List.Forall₂ (fun p q =>
          (stopEligibleHash s p = true → q.suspended = true) ∧
          (stopEligibleHash s p = false → q = p)) l l1 ∧
        ∃ l2 cs, startChain l1 = .ok (l2, cs) ∧
          cs = l.map (fun p => if stopEligibleHash s p then 1 else 0) ∧
          (∀ q ∈ l2, q.suspended = false) := by
  intro l
  induction l with
  | nil =>
    intro _ _ _
    exact ⟨[], rfl, List.Forall₂.nil, [], [], rfl, rfl, by simp⟩
  | cons p rest ih =>
    intro h0 hs hr
    obtain ⟨l1, hsus, hF2, l2, cs, hstart, hcs, hclear⟩ :=
      ih (fun q hq => h0 q (by simp [hq])) (fun q hq => hs q (by simp [hq]))
         (fun q hq => hr q (by simp [hq]))
    have hrp : p.resume_ok = true := hr p (by simp)
    by_cases hp : stopEligibleHash s p = true
    · obtain ⟨regs, sp, hcap⟩ := hs p (by simp) hp
      have hsusp := GC_suspend_success .explicitReg p regs sp hcap
      refine ⟨{ p with context_regs := regs, context_sp := sp,
                       suspended := true } :: l1, ?_, ?_, ?_⟩
      · simp only [suspendChain]
        rw [if_pos hp, hsusp, hsus]
      · exact List.Forall₂.cons
          ⟨fun _ => rfl,
           fun hfalse => by rw [hp] at hfalse; exact Bool.noConfusion hfalse⟩
          hF2
      · have hres := resumeRecord_suspended
          { p with context_regs := regs, context_sp := sp, suspended := true }
          rfl hrp
        refine ⟨{ p with context_regs := regs, context_sp := sp,
                         suspended := false } :: l2, 1 :: cs, ?_, ?_, ?_⟩
        · simp only [startChain]
          rw [hres, hstart]
        · rw [List.map_cons, if_pos hp, ← hcs]
        · intro q hq
          rcases List.mem_cons.mp hq with hq1 | hq2
          · rw [hq1]
          · exact hclear q hq2
    · refine ⟨p :: l1, ?_, ?_, ?_⟩
      · simp only [suspendChain]
        rw [if_neg hp, hsus]
      · exact List.Forall₂.cons
          ⟨fun htrue => absurd htrue hp, fun _ => rfl⟩ hF2
      · have hres := resumeRecord_idle p (h0 p (by simp))
        refine ⟨p :: l2, 0 :: cs, ?_, ?_, ?_⟩
        · simp only [startChain]
          rw [hres, hstart]
        · rw [List.map_cons, if_neg hp, ← hcs]
        · intro q hq
          rcases List.mem_cons.mp hq with hq1 | hq2
          · rw [hq1]; exact h0 p (by simp)
          · exact hclear q hq2

/-- Roundtrip of the discovery-mode table: only the slots up to the
iteration bound are touched; among them the eligible records are suspended
and then resumed exactly once, records beyond the bound are untouched (and
receive count 0), and afterwards no record of the table is suspended. -/
theorem dllTable_roundtrip (s : Nat) :
    ∀ (l : List GC_Thread_Rep) (bound : Nat),
      (∀ p ∈ l, p.suspended = false) →
      (∀ p ∈ l.take bound, stopEligibleDll s p = true →
        ∃ regs sp, GC_suspend_loop p.os_attempts = .captured regs sp) →
      (∀ p ∈ l, p.resume_ok = true) →
      ∃ l1, suspendDllTable s bound l = .ok l1 ∧
        List.Forall₂ (fun p q =>
          (stopEligibleDll s p = true → q.suspended = true) ∧
          (stopEligibleDll s p = false → q = p)) (l.take bound) (l1.take bound) ∧
        l1.drop bound = l.drop bound ∧
        ∃ l2 cs, startDllTable bound l1 = .ok (l2, cs) ∧
          cs = (l.take bound).map (fun p => if stopEligibleDll s p then 1 else 0)
              ++ List.replicate (l.length - bound) 0 ∧
          (∀ q ∈ l2, q.suspended = false) := by
  intro l
  induction l with
  | nil =>
    intro bound _ _ _
    refine ⟨[], ?_, ?_, ?_, [], [], ?_, ?_, by simp⟩
    · cases bound <;> rfl
    · simp
    · simp
    · cases bound <;> rfl
    · simp
  | cons p rest ih =>
    intro bound h0 hs hr
    cases bound with
    | zero =>
      refine ⟨p :: rest, rfl, by simp, by simp, p :: rest,
        List.replicate (p :: rest).length 0, rfl, by simp, h0⟩
    | succ b =>
      obtain ⟨l1, hsus, hF2, hdrop, l2, cs, hstart, hcs, hclear⟩ :=
        ih b (fun q hq => h0 q (by simp [hq]))
          (fun q hq => hs q (by rw [List.take_succ_cons]; simp [hq]))
          (fun q hq => hr q (by simp [hq]))
      have hrp : p.resume_ok = true := hr p (by simp)
      by_cases hp : stopEligibleDll s p = true
      · obtain ⟨regs, sp, hcap⟩ := hs p (by simp) hp
        have hsusp := GC_suspend_success .discovery p regs sp hcap
        refine ⟨{ p with context_regs := regs, context_sp := sp,
                         suspended := true } :: l1, ?_, ?_, ?_, ?_⟩
        · simp only [suspendDllTable]
          rw [if_pos hp, hsusp, hsus]
        · rw [List.take_succ_cons, List.take_succ_cons]
          exact List.Forall₂.cons
            ⟨fun _ => rfl,
             fun hfalse => by rw [hp] at hfalse; exact Bool.noConfusion hfalse⟩
            hF2
        · rw [List.drop_succ_cons, List.drop_succ_cons]
          exact hdrop
        · have hres := resumeRecord_suspended
            { p with context_regs := regs, context_sp := sp, suspended := true }
            rfl hrp
          refine ⟨{ p with context_regs := regs, context_sp := sp,
                           suspended := false } :: l2, 1 :: cs, ?_, ?_, ?_⟩
          · simp only [startDllTable]
            rw [hres, hstart]
          · rw [hcs, List.take_succ_cons, List.map_cons, if_pos hp,
              List.cons_append, List.length_cons, Nat.succ_sub_succ]
          · intro q hq
            rcases List.mem_cons.mp hq with hq1 | hq2
            · rw [hq1]
            · exact hclear q hq2
      · refine ⟨p :: l1, ?_, ?_, ?_, ?_⟩
        · simp only [suspendDllTable]
          rw [if_neg hp, hsus]
        · rw [List.take_succ_cons, List.take_succ_cons]
          exact List.Forall₂.cons
            ⟨fun htrue => absurd htrue hp, fun _ => rfl⟩ hF2
        · rw [List.drop_succ_cons, List.drop_succ_cons]
          exact hdrop
        · have hres := resumeRecord_idle p (h0 p (by simp))
          refine ⟨p :: l2, 0 :: cs, ?_, ?_, ?_⟩
          · simp only [startDllTable]
            rw [hres, hstart]
          · rw [hcs, List.take_succ_cons, List.map_cons, if_neg hp,
              List.cons_append, List.length_cons, Nat.succ_sub_succ]
          · intro q hq
            rcases List.mem_cons.mp hq with hq1 | hq2
            · rw [hq1]; exact h0 p (by simp)
            · exact hclear q hq2

/-- `Forall₂` is preserved by appending related lists. -/
theorem forall₂_append_of (R : GC_Thread_Rep → GC_Thread_Rep → Prop) :
    ∀ {l1 u1 l2 u2 : List GC_Thread_Rep}, List.Forall₂ R l1 u1 →
      List.Forall₂ R l2 u2 → List.Forall₂ R (l1 ++ l2) (u1 ++ u2) := by
  intro l1 u1 l2 u2 h1 h2
  induction h1 with
  | nil => exact h2
  | cons hab hrest ih => exact List.Forall₂.cons hab ih

/-- Roundtrip of the whole explicit-mode registry (all hash chains). -/
theorem buckets_roundtrip (s : Nat) :
    ∀ bs : List (List GC_Thread_Rep),
      (∀ p ∈ bs.flatten, p.suspended = false) →
      (∀ p ∈ bs.flatten, stopEligibleHash s p = true →
        ∃ regs sp, GC_suspend_loop p.os_attempts = .captured regs sp) →
      (∀ p ∈ bs.flatten, p.resume_ok = true) →
      ∃ bs1, suspendBuckets s bs = .ok bs1 ∧
        List.Forall₂ (fun p q =>
          (stopEligibleHash s p = true → q.suspended = true) ∧
          (stopEligibleHash s p = false → q = p)) bs.flatten bs1.flatten ∧
        ∃ bs2 cs, startBuckets bs1 = .ok (bs2, cs) ∧
          cs = bs.flatten.map (fun p => if stopEligibleHash s p then 1 else 0) ∧
          (∀ q ∈ bs2.flatten, q.suspended = false) := by
  intro bs
  induction bs with
  | nil =>
    intro _ _ _
    exact ⟨[], rfl, List.Forall₂.nil, [], [], rfl, by simp, by simp⟩
  | cons c cst ih =>
    intro h0 hs hr
    obtain ⟨bs1, hsusB, hF2B, bs2, csB, hstartB, hcsB, hclearB⟩ :=
      ih (fun q hq => h0 q (by simp [hq])) (fun q hq => hs q (by simp [hq]))
         (fun q hq => hr q (by simp [hq]))
    obtain ⟨l1, hsusC, hF2C, l2, csC, hstartC, hcsC, hclearC⟩ :=
      chain_roundtrip s c (fun q hq => h0 q (by simp [hq]))
        (fun q hq => hs q (by simp [hq])) (fun q hq => hr q (by simp [hq]))
    refine ⟨l1 :: bs1, ?_, ?_, l2 :: bs2, csC ++ csB, ?_, ?_, ?_⟩
    · simp only [suspendBuckets]
      rw [hsusC, hsusB]
    · rw [List.flatten_cons, List.flatten_cons]
      exact forall₂_append_of _ hF2C hF2B
    · simp only [startBuckets]
      rw [hstartC, hstartB]
    · rw [List.flatten_cons, List.map_append, hcsC, hcsB]
    · intro q hq
      rw [List.flatten_cons] at hq
      rcases List.mem_append.mp hq with hq1 | hq2
      · exact hclearC q hq1
      · exact hclearB q hq2

/-- Claim C1 (amended): a stop-the-world followed by a resume-the-world
is a round trip on the registry's suspension state, for threads the stop
loop actually suspends: starting from a world with no suspended record,
for every registered thread other than the caller whose stack range is
set, which is not in a blocking bracket, is not marked `FINISHED`
(explicit mode skips `FINISHED` records), and whose OS suspension
succeeds within the retry budget (the thread has not exited), and with
every `ResumeThread` succeeding, `GC_stop_world` suspends it and sets its
`SUSPENDED` flag, `GC_start_world` resumes it exactly once (count 1; all
other records get count 0) and clears the flag, and after `GC_start_world`
returns no record in either registry variant has the `SUSPENDED` flag
set. -/
theorem GC_stop_start_world_cycle (g : Globals) (self_id : Nat)
    (h0 : ∀ p ∈ allRecords g, p.suspended = false)
    (hsusp : ∀ p ∈ scannedRecords g, stopEligible g self_id p = true →
       ∃ regs sp, GC_suspend_loop p.os_attempts = .captured regs sp)
    (hres : ∀ p ∈ allRecords g, p.resume_ok = true) :
    ∃ g1 g2 cs,
      GC_stop_world self_id g = .ok g1 ∧
      List.Forall₂ (fun p q =>
          (stopEligible g self_id p = true → q.suspended = true) ∧
          (stopEligible g self_id p = false → q = p))
        (scannedRecords g) (scannedRecords g1) ∧
      GC_start_world g1 = .ok (g2, cs) ∧
      cs.take (scannedRecords g).length = (scannedRecords g).map
          (fun p => if stopEligible g self_id p then 1 else 0) ∧
      (∀ c ∈ cs.drop (scannedRecords g).length, c = 0) ∧
      (∀ q ∈ allRecords g2, q.suspended = false) := by
  cases hdll : g.win32_dll_threads with
  | false =>
    have hall : allRecords g = g.threads.flatten := by simp [allRecords, hdll]
    have hscan : scannedRecords g = g.threads.flatten := by
      simp [scannedRecords, hdll]
    have helig : stopEligible g self_id = stopEligibleHash self_id := by
      funext p
      simp [stopEligible, hdll]
    rw [hall] at h0 hres
    rw [hscan, helig] at hsusp
    obtain ⟨bs1, hsusB, hF2, bs2, cs, hstart, hcs, hclear⟩ :=
      buckets_roundtrip self_id g.threads h0 hsusp hres
    refine ⟨{ g with please_stop := true, threads := bs1 }, { g with please_stop := false, threads := bs2 }, cs, ?_, ?_, ?_, ?_, ?_, ?_⟩
    · unfold GC_stop_world
      dsimp only
      rw [hdll]
      simp only [Bool.false_eq_true, if_false]
      rw [hsusB]
    · have hscan1 : scannedRecords { g with please_stop := true, threads := bs1 } = bs1.flatten := by
        simp [scannedRecords, hdll]
      rw [hscan, hscan1, helig]
      exact hF2
    · unfold GC_start_world
      dsimp only
      rw [hdll]
      simp only [Bool.false_eq_true, if_false]
      rw [hstart]
    · subst hcs
      rw [hscan, helig]
      rw [List.take_of_length_le (le_of_eq (by rw [List.length_map]))]
    · subst hcs
      rw [hscan]
      rw [List.drop_eq_nil_of_le (le_of_eq (by rw [List.length_map]))]
      simp
    · have hall2 : allRecords { g with please_stop := false, threads := bs2 } = bs2.flatten := by
        simp [allRecords, hdll]
      rw [hall2]
      exact hclear
  | true =>
    have hall : allRecords g = g.dll_thread_table := by simp [allRecords, hdll]
    have hscan : scannedRecords g =
        g.dll_thread_table.take (GC_get_max_thread_index g + 1) := by
      simp [scannedRecords, hdll]
    have helig : stopEligible g self_id = stopEligibleDll self_id := by
      funext p
      simp [stopEligible, hdll]
    rw [hall] at h0 hres
    rw [hscan, helig] at hsusp
    obtain ⟨l1, hsusT, hF2, hdrop, l2, cs, hstart, hcs, hclear⟩ :=
      dllTable_roundtrip self_id g.dll_thread_table
        (GC_get_max_thread_index g + 1) h0 hsusp hres
    have hmx : GC_get_max_thread_index { g with please_stop := true, attached_thread := false } = GC_get_max_thread_index g := rfl
    have hmx1 : GC_get_max_thread_index { g with please_stop := true, attached_thread := false, dll_thread_table := l1 } = GC_get_max_thread_index g := rfl
    refine ⟨{ g with please_stop := true, attached_thread := false, dll_thread_table := l1 }, { g with please_stop := false, attached_thread := false, dll_thread_table := l2 }, cs, ?_, ?_, ?_, ?_, ?_, ?_⟩
    · unfold GC_stop_world
      dsimp only
      rw [hmx, hsusT, hdll, if_pos rfl]
    · have hscan1 : scannedRecords { g with please_stop := true, attached_thread := false, dll_thread_table := l1 } = l1.take (GC_get_max_thread_index g + 1) := by
        simp only [scannedRecords, hmx1]
        rw [if_pos hdll]
      rw [hscan, hscan1, helig]
      exact hF2
    · unfold GC_start_world
      dsimp only
      rw [hmx1, hstart, hdll, if_pos rfl]
    · subst hcs
      rw [hscan, helig]
      rw [List.take_left' (by simp)]
    · subst hcs
      rw [hscan]
      rw [List.drop_left' (by simp)]
      intro c hc
      exact List.eq_of_mem_replicate hc
    · have hall2 : allRecords { g with please_stop := false, attached_thread := false, dll_thread_table := l2 } = l2 := by
        simp [allRecords, hdll]
      rw [hall2]
      exact hclear

/-- Counterexample to C1 as stated: the record satisfies the claim's
premise (registered, stack range set, not in a blocking bracket, not the
caller), yet `GC_stop_world` returns successfully with the record still
unsuspended, because the explicit-mode loop also skips `FINISHED`
records (line 1280). -/
theorem GC_stop_world_finished_cex :
    c1FinRec.stack_end ≠ 0 ∧ c1FinRec.do_blocking = false ∧
    c1FinRec.id ≠ 1 ∧
    (GC_stop_world 1 c1CexG).map
        (fun g' => g'.threads.flatten.map (fun q => q.suspended)) =
      .ok [false] :=
  ⟨by decide, rfl, by decide, rfl⟩

/-- Witness for the amended C1: the concrete two-thread world stops and
restarts with the worker suspended then resumed exactly once and no
record left suspended. -/
theorem GC_stop_start_world_cycle_witness :
    ∃ g1 g2 cs,
      GC_stop_world 1 c1G = .ok g1 ∧
      List.Forall₂ (fun p q =>
          (stopEligible c1G 1 p = true → q.suspended = true) ∧
          (stopEligible c1G 1 p = false → q = p))
        (scannedRecords c1G) (scannedRecords g1) ∧
      GC_start_world g1 = .ok (g2, cs) ∧
      cs.take (scannedRecords c1G).length = (scannedRecords c1G).map
          (fun p => if stopEligible c1G 1 p then 1 else 0) ∧
      (∀ c ∈ cs.drop (scannedRecords c1G).length, c = 0) ∧
      (∀ q ∈ allRecords g2, q.suspended = false) := by
  refine GC_stop_start_world_cycle c1G 1 (by decide) ?_ (by decide)
  intro p hp
  have hp' : p = c1SelfRec ∨ p = c1OkRec := by
    simpa [scannedRecords, c1G, c1SelfRec, c1OkRec] using hp
  rcases hp' with rfl | rfl
  · intro h
    exact absurd h (by decide)
  · intro _
    exact ⟨[], 60, rfl⟩
